import Mathlib

/-!
Verification development for the Smart-Task-Assistant core engine.

The definitions below are a shallow embedding of the TypeScript source:
  * `src/lib/task-utils.ts` — task creation/modification, identifier
    resolution (`findTaskByIdentifier`), filtering (`filterTasks`,
    `createFilter`);
  * the agent API route — the action executor `processToolCall` and the
    tool-call loop of `callAnthropicAPI` / `callOpenAIAPI`, modelled as
    `applyBatch`.

Modelling conventions: JavaScript `undefined`-able values become `Option`;
`new Date().toISOString()` and `uuidv4()` are nondeterministic inputs and
are passed in explicitly as the `now` / `freshId` arguments; `parseInt(s,
10)` is modelled by `jsParseInt`; strings are ASCII for case conversion.
-/

namespace SmartTask

/-- JavaScript `s.trim()`: drop leading and trailing whitespace. Defined
over the character list so that it evaluates by kernel reduction. -/
def jsTrim (s : String) : String :=
  ⟨((s.data.dropWhile Char.isWhitespace).reverse.dropWhile Char.isWhitespace).reverse⟩

/-- JavaScript `s.toLowerCase()` (ASCII model). -/
def jsToLower (s : String) : String :=
  ⟨s.data.map Char.toLower⟩

/-- Split a character list at every occurrence of `sep`
(JavaScript `s.split(sep)` for a single-character separator). -/
def splitCharsOn (sep : Char) : List Char → List (List Char)
  | [] => [[]]
  | c :: rest =>
      let r := splitCharsOn sep rest
      if c == sep then [] :: r
      else
        match r with
        | [] => [[c]]
        | h :: t => (c :: h) :: t

/-- JavaScript `s.split(':')`. -/
def jsSplitColon (s : String) : List String :=
  (splitCharsOn ':' s.data).map String.mk

/-- Priority levels (`type Priority = 'low' | 'medium' | 'high'`). -/
inductive Priority where
  | low
  | medium
  | high
deriving DecidableEq, Repr

/-- The string form of a priority, as it appears in the TS union type. -/
def Priority.toStr : Priority → String
  | .low => "low"
  | .medium => "medium"
  | .high => "high"

/-- A task (`interface Task`). `completedAt` is optional in the source. -/
structure Task where
  id : String
  title : String
  priority : Priority
  category : String
  completed : Bool
  createdAt : String
  completedAt : Option String
deriving DecidableEq, Repr

/-- The task-list state (`interface TaskState`). -/
structure TaskState where
  tasks : List Task
  filter : Option String
  agentMessage : Option String
deriving DecidableEq, Repr

/-- `createTask` from task-utils.ts. The uuid and the creation timestamp
are environment inputs, passed explicitly. -/
def createTask (id createdAt : String) (title : String) (priority : Priority)
    (category : String) : Task :=
  { id := id
    title := jsTrim title
    priority := priority
    category := jsTrim category
    completed := false
    createdAt := createdAt
    completedAt := none }

/-- `addTask` from task-utils.ts: appends the task. -/
def addTask (state : TaskState) (task : Task) : TaskState :=
  { state with tasks := state.tasks ++ [task] }

/-- `completeTask` from task-utils.ts: marks every id-matching task
completed and stamps `completedAt` with the current time. -/
def completeTask (state : TaskState) (taskId : String) (now : String) : TaskState :=
  { state with
    tasks := state.tasks.map fun task =>
      if task.id == taskId then
        { task with completed := true, completedAt := some now }
      else task }

/-- `uncompleteTask` from task-utils.ts: clears the completion flag and
`completedAt` on every id-matching task. -/
def uncompleteTask (state : TaskState) (taskId : String) : TaskState :=
  { state with
    tasks := state.tasks.map fun task =>
      if task.id == taskId then
        { task with completed := false, completedAt := none }
      else task }

/-- `deleteTask` from task-utils.ts: removes the id-matching tasks. -/
def deleteTask (state : TaskState) (taskId : String) : TaskState :=
  { state with tasks := state.tasks.filter fun task => task.id != taskId }

/-- `createInitialState` from task-utils.ts. -/
def createInitialState : TaskState :=
  { tasks := [], filter := none, agentMessage := none }

/-- Numeric value of a run of decimal digits. -/
def digitsVal (ds : List Char) : Nat :=
  ds.foldl (fun n c => 10 * n + (c.toNat - 48)) 0

/-- JavaScript `parseInt(s, 10)`: skip leading whitespace, read an optional
single sign, then the longest run of decimal digits; `NaN` (here `none`)
when no digit follows. -/
def jsParseInt (s : String) : Option Int :=
  let cs := s.data.dropWhile Char.isWhitespace
  let hasNeg := cs.headD ' ' == '-'
  let hasSign := hasNeg || cs.headD ' ' == '+'
  let sign : Int := if hasNeg then -1 else 1
  let body := if hasSign then cs.tail else cs
  let ds := body.takeWhile Char.isDigit
  if ds.isEmpty then none
  else some (sign * Int.ofNat (digitsVal ds))

/-- Helper for the substring test: is `needle` an initial segment of `hay`? -/
def charsStartWith : List Char → List Char → Bool
  | [], _ => true
  | _ :: _, [] => false
  | a :: as, b :: bs => a == b && charsStartWith as bs

/-- JavaScript `hay.includes(needle)`: substring containment. -/
def charsContain (needle : List Char) : List Char → Bool
  | [] => needle.isEmpty
  | b :: bs => charsStartWith needle (b :: bs) || charsContain needle bs

/-- JavaScript `hay.includes(needle)` on strings. -/
def jsIncludes (hay needle : String) : Bool :=
  charsContain needle.toList hay.toList

/-- Does the positional step of identifier resolution fire on the
normalized identifier? (Used to state claims about the later steps.) -/
def positionalApplies (tasks : List Task) (normalized : String) : Bool :=
  match jsParseInt normalized with
  | some index => 1 ≤ index && index ≤ (tasks.length : Int)
  | none => false

/-- The keyword and title-substring steps of `findTaskByIdentifier`
(everything after the positional attempt). -/
def resolveKeywordOrTitle (tasks : List Task) (normalized : String) : Option Task :=
  if normalized == "last" || normalized == "last task" then
    tasks.getLast?
  else if normalized == "first" || normalized == "first task" then
    tasks.head?
  else
    tasks.find? fun task => jsIncludes (jsToLower task.title) normalized

/-- `findTaskByIdentifier` from task-utils.ts: 1-based positional index
first, then the `last`/`first` keywords, then first case-insensitive
title-substring match. -/
def findTaskByIdentifier (tasks : List Task) (identifier : String) : Option Task :=
  let normalized := jsTrim (jsToLower identifier)
  match jsParseInt normalized with
  | some index =>
      if 1 ≤ index && index ≤ (tasks.length : Int) then
        tasks[(index - 1).toNat]?
      else
        resolveKeywordOrTitle tasks normalized
  | none => resolveKeywordOrTitle tasks normalized

/-- `filterTasks` from task-utils.ts. A missing filter is `none`; the
JavaScript falsiness of the empty string is modelled explicitly. -/
def filterTasks (tasks : List Task) (filter : Option String) : List Task :=
  match filter with
  | none => tasks
  | some f =>
    if f == "" || f == "all" then tasks
    else
      let parts := jsSplitColon f
      let filterType := parts.headD ""
      let filterValue : Option String := parts[1]?
      let key := jsToLower filterType
      if key == "priority" then
        tasks.filter fun task =>
          match filterValue with
          | some v => task.priority.toStr == v
          | none => false
      else if key == "completed" then
        let showCompleted := filterValue == some "true"
        tasks.filter fun task => task.completed == showCompleted
      else if key == "active" then
        tasks.filter fun task => !task.completed
      else if key == "category" then
        tasks.filter fun task =>
          match filterValue with
          | some v => jsToLower task.category == jsToLower v
          | none => false
      else tasks

/-- JavaScript truthiness of an optional string. -/
def strTruthy : Option String → Bool
  | none => false
  | some s => s != ""

/-- `createFilter` from task-utils.ts. -/
def createFilter (filterType : String) (filterValue : Option String) : Option String :=
  if filterType == "all" then none
  else if filterType == "active" then some "completed:false"
  else if filterType == "completed" then some "completed:true"
  else if filterType == "priority" && strTruthy filterValue then
    some ("priority:" ++ jsToLower (filterValue.getD ""))
  else if filterType == "category" && strTruthy filterValue then
    some ("category:" ++ jsToLower (filterValue.getD ""))
  else none

/-- A structured tool call, as dispatched by `processToolCall`'s switch. -/
inductive ToolRequest where
  | add (title : String) (priority : Option Priority) (category : Option String)
  | complete (taskIdentifier : String)
  | uncomplete (taskIdentifier : String)
  | delete (taskIdentifier : String)
  | setFilter (filterType : String) (filterValue : Option String)
  | unknown
deriving DecidableEq, Repr

/-- Result of one executor step: the next state and the optional summary
(`action`) string. -/
structure ToolResult where
  state : TaskState
  action : Option String
deriving DecidableEq, Repr

/-- `processToolCall` from the agent API route: the action executor.
`freshId` and `now` are the uuid and timestamp the call would draw from
the environment. -/
def processToolCall (freshId now : String) (req : ToolRequest)
    (state : TaskState) : ToolResult :=
  match req with
  | .add title priority category =>
      let task := createTask freshId now title (priority.getD .medium) (category.getD "")
      { state := addTask state task
        action := some ("Added \"" ++ task.title ++ "\"") }
  | .complete ident =>
      match findTaskByIdentifier state.tasks ident with
      | none =>
          { state := { state with
              agentMessage := some ("Couldn\x27t find a task matching \"" ++ ident ++ "\"") }
            action := none }
      | some task =>
          if task.completed then
            { state := { state with
                agentMessage := some ("\"" ++ task.title ++ "\" is already complete") }
              action := none }
          else
            { state := completeTask state task.id now
              action := some ("Completed \"" ++ task.title ++ "\"") }
  | .uncomplete ident =>
      match findTaskByIdentifier state.tasks ident with
      | none =>
          { state := { state with
              agentMessage := some ("Couldn\x27t find a task matching \"" ++ ident ++ "\"") }
            action := none }
      | some task =>
          if !task.completed then
            { state := { state with
                agentMessage := some ("\"" ++ task.title ++ "\" is already active") }
              action := none }
          else
            { state := uncompleteTask state task.id
              action := some ("Marked \"" ++ task.title ++ "\" as active") }
  | .delete ident =>
      match findTaskByIdentifier state.tasks ident with
      | none =>
          { state := { state with
              agentMessage := some ("Couldn\x27t find a task matching \"" ++ ident ++ "\"") }
            action := none }
      | some task =>
          { state := deleteTask state task.id
            action := some ("Deleted \"" ++ task.title ++ "\"") }
  | .setFilter filterType filterValue =>
      let filter := createFilter filterType filterValue
      { state := { state with filter := filter }
        action := match filter with
          | some _ => some ("Filtering by " ++ filterType)
          | none => some "Showing all tasks" }
  | .unknown => { state := state, action := none }

/-- The tool-call loop of `callAnthropicAPI` / `callOpenAIAPI`: apply the
requests in order, threading the state, collecting the non-null `action`
summaries in order. Each request is paired with the `(freshId, now)`
environment values its executor call would draw. -/
def applyBatch (state : TaskState) :
    List ((String × String) × ToolRequest) → TaskState × List String
  | [] => (state, [])
  | (env, req) :: rest =>
      let result := processToolCall env.1 env.2 req state
      let next := applyBatch result.state rest
      match result.action with
      | some a => (next.1, a :: next.2)
      | none => next

/-- `actionsTaken.join('. ') + '.'` — the aggregate message built from the
collected summaries. -/
def joinActions (actions : List String) : String :=
  String.intercalate ". " actions ++ "."

/-- Is the key of a filter string one the filter engine recognizes? The key
is the text before the first colon, lower-cased, exactly as `filterTasks`
computes it. -/
def recognizedFilterKey (f : String) : Bool :=
  let key := jsToLower ((jsSplitColon f).headD "")
  key == "priority" || key == "completed" || key == "active" || key == "category"

/-- The item-level half of the completion invariant: `completedAt` is
present exactly when `completed` is true. -/
def itemInv (t : Task) : Prop :=
  t.completedAt.isSome = t.completed

/-- The store-level completion invariant. -/
def storeInv (s : TaskState) : Prop :=
  ∀ t ∈ s.tasks, t.completedAt.isSome = t.completed

/-- Fixture: a three-item store in insertion order, used for the concrete
scenarios of the testable properties. -/
def taskA : Task :=
  { id := "a", title := "alpha", priority := .low, category := "work",
    completed := false, createdAt := "t1", completedAt := none }

/-- Fixture: second item. -/
def taskB : Task :=
  { id := "b", title := "beta", priority := .medium, category := "",
    completed := false, createdAt := "t2", completedAt := none }

/-- Fixture: third item. -/
def taskC : Task :=
  { id := "c", title := "gamma", priority := .high, category := "home",
    completed := false, createdAt := "t3", completedAt := none }

/-- Fixture: the list [A, B, C]. -/
def demo3 : List Task :=
  [taskA, taskB, taskC]

/-- Fixture: an already-completed item. -/
def taskDone : Task :=
  { id := "d", title := "ship release", priority := .high, category := "work",
    completed := true, createdAt := "t0", completedAt := some "t4" }

/-- Fixture: a store whose single item is already completed. -/
def doneState : TaskState :=
  { tasks := [taskDone], filter := none, agentMessage := none }

/-! Helper lemmas. -/

/-- A decimal digit is not whitespace. -/
theorem isWhitespace_eq_false_of_isDigit {c : Char} (h : c.isDigit = true) :
    c.isWhitespace = false := by
  cases hw : c.isWhitespace with
  | false => rfl
  | true =>
    exfalso
    simp only [Char.isWhitespace, Bool.or_eq_true, decide_eq_true_eq] at hw
    rcases hw with ((rfl | rfl) | rfl) | rfl <;> exact absurd h (by decide)

/-- A decimal digit is not the minus sign. -/
theorem ne_minus_of_isDigit {c : Char} (h : c.isDigit = true) :
    (c == '-') = false := by
  cases he : c == '-' with
  | false => rfl
  | true =>
    exfalso
    rw [beq_iff_eq] at he
    subst he
    exact absurd h (by decide)

/-- A decimal digit is not the plus sign. -/
theorem ne_plus_of_isDigit {c : Char} (h : c.isDigit = true) :
    (c == '+') = false := by
  cases he : c == '+' with
  | false => rfl
  | true =>
    exfalso
    rw [beq_iff_eq] at he
    subst he
    exact absurd h (by decide)

/-- `takeWhile` consumes exactly an all-true prefix when the remainder
starts with a failing element (or is empty). -/
theorem takeWhile_exact_head {α : Type} (p : α → Bool) :
    ∀ (l₁ l₂ : List α), (∀ c ∈ l₁, p c = true) →
      (∀ c, l₂.head? = some c → p c = false) →
      (l₁ ++ l₂).takeWhile p = l₁ := by
  intro l₁
  induction l₁ with
  | nil =>
    intro l₂ _ h₂
    cases l₂ with
    | nil => rfl
    | cons c cs =>
      rw [List.nil_append, List.takeWhile_cons_of_neg (by simp [h₂ c rfl])]
  | cons a as ih =>
    intro l₂ h₁ h₂
    rw [List.cons_append, List.takeWhile_cons_of_pos (by simp [h₁ a (List.mem_cons_self a as)]),
      ih l₂ (fun c hc => h₁ c (List.mem_cons_of_mem a hc)) h₂]

/-- If the string starts with a digit, `jsParseInt` returns the value of
its maximal digit prefix (no sign, no whitespace skipping happens). -/
theorem jsParseInt_digit_head (s : String) (d : Char) (tl : List Char)
    (hdata : s.data = d :: tl) (hd : d.isDigit = true) :
    jsParseInt s = some (Int.ofNat (digitsVal ((d :: tl).takeWhile Char.isDigit))) := by
  have hw : d.isWhitespace = false := isWhitespace_eq_false_of_isDigit hd
  have hm : (d == '-') = false := ne_minus_of_isDigit hd
  have hp : (d == '+') = false := ne_plus_of_isDigit hd
  simp only [jsParseInt, hdata, List.dropWhile_cons, hw, Bool.false_eq_true, if_false,
    List.headD_cons, hm, hp, Bool.or_self, if_neg, Bool.false_eq_true, not_false_iff,
    List.takeWhile_cons, hd, if_true]
  rw [if_neg]
  · simp
  · simp [List.takeWhile_cons, hd]

/-- Positional resolution: when the normalized identifier parses to an
in-range 1-based index `n`, the resolver returns the item at `n-1`. -/
theorem resolver_positional_aux (tasks : List Task) (ident : String) (n : ℕ)
    (hn : jsParseInt (jsTrim (jsToLower ident)) = some (n : Int))
    (h1 : 1 ≤ n) (h2 : n ≤ tasks.length) :
    findTaskByIdentifier tasks ident = tasks[n - 1]? := by
  have hcond : (1 ≤ (n : Int) && (n : Int) ≤ (tasks.length : Int)) = true := by
    simp only [Bool.and_eq_true, decide_eq_true_eq]
    constructor <;> [exact_mod_cast h1; exact_mod_cast h2]
  have htn : ((n : Int) - 1).toNat = n - 1 := by omega
  simp only [findTaskByIdentifier, hn, hcond, if_true, htn]

/-! Claim theorems. -/

/-- Claim C6: an identifier whose normalized form parses to a positive
integer `n` with `1 ≤ n ≤ len(items)` resolves to the item at position
`n-1`; on the three-item list `[A,B,C]`, "2" resolves to B while "0" and
"4" resolve to nothing. -/
theorem resolve_positional_spec :
    (∀ (tasks : List Task) (ident : String) (n : ℕ),
        jsParseInt (jsTrim (jsToLower ident)) = some (n : Int) →
        1 ≤ n → n ≤ tasks.length →
        findTaskByIdentifier tasks ident = tasks[n - 1]?)
    ∧ findTaskByIdentifier demo3 "2" = some taskB
    ∧ findTaskByIdentifier demo3 "0" = none
    ∧ findTaskByIdentifier demo3 "4" = none :=
  ⟨resolver_positional_aux, rfl, rfl, rfl⟩

/-- Witness for C6: "3" resolves positionally on the demo list. -/
theorem resolve_positional_spec_witness :
    findTaskByIdentifier demo3 "3" = demo3[3 - 1]? :=
  resolve_positional_spec.1 demo3 "3" 3 (by decide) (by decide) (by decide)

/-- Claim C9 (implicit): an identifier whose normalized form begins with a
digit run valued `n` (with `1 ≤ n ≤ len`) resolves positionally even when
non-numeric text trails the digits; "1st task" and "2 groceries" resolve
by position on the demo list. -/
theorem resolve_digit_prefix_spec :
    (∀ (tasks : List Task) (ident : String) (ds rest : List Char) (n : ℕ),
        (jsTrim (jsToLower ident)).data = ds ++ rest →
        ds ≠ [] →
        (∀ c ∈ ds, c.isDigit = true) →
        (∀ c, rest.head? = some c → c.isDigit = false) →
        digitsVal ds = n →
        1 ≤ n → n ≤ tasks.length →
        findTaskByIdentifier tasks ident = tasks[n - 1]?)
    ∧ findTaskByIdentifier demo3 "1st task" = some taskA
    ∧ findTaskByIdentifier demo3 "2 groceries" = some taskB := by
  refine ⟨?_, rfl, rfl⟩
  intro tasks ident ds rest n hdata hne hds hrest hval h1 h2
  apply resolver_positional_aux tasks ident n ?_ h1 h2
  cases ds with
  | nil => exact absurd rfl hne
  | cons d tl =>
    have hd : d.isDigit = true := hds d (List.mem_cons_self d tl)
    have hparse := jsParseInt_digit_head (jsTrim (jsToLower ident)) d (tl ++ rest)
      (by simpa using hdata) hd
    have htake : (d :: (tl ++ rest)).takeWhile Char.isDigit = d :: tl := by
      have := takeWhile_exact_head Char.isDigit (d :: tl) rest hds hrest
      simpa using this
    rw [hparse, htake, hval]
    simp

/-- Witness for C9: "1st one" resolves positionally on the demo list. -/
theorem resolve_digit_prefix_spec_witness :
    findTaskByIdentifier demo3 "1st one" = demo3[1 - 1]? :=
  resolve_digit_prefix_spec.1 demo3 "1st one" ['1'] "st one".data 1
    (by decide) (by decide) (by decide) (by decide) (by decide) (by decide) (by decide)

/-- Claim C7: when neither the positional step nor a `last`/`first` keyword
applies, the resolver returns the first item in store order whose
lower-cased title contains the normalized identifier as a substring
(`List.find?` semantics: no secondary tie-break, `none` when no title
matches). -/
theorem resolve_title_substring_spec (tasks : List Task) (ident : String)
    (hpos : positionalApplies tasks (jsTrim (jsToLower ident)) = false)
    (h1 : jsTrim (jsToLower ident) ≠ "last")
    (h2 : jsTrim (jsToLower ident) ≠ "last task")
    (h3 : jsTrim (jsToLower ident) ≠ "first")
    (h4 : jsTrim (jsToLower ident) ≠ "first task") :
    findTaskByIdentifier tasks ident
      = tasks.find? fun task => jsIncludes (jsToLower task.title) (jsTrim (jsToLower ident)) := by
  have hkw : resolveKeywordOrTitle tasks (jsTrim (jsToLower ident))
      = tasks.find? fun task => jsIncludes (jsToLower task.title) (jsTrim (jsToLower ident)) := by
    rw [resolveKeywordOrTitle, if_neg (by simp [h1, h2]), if_neg (by simp [h3, h4])]
  cases hp : jsParseInt (jsTrim (jsToLower ident)) with
  | none =>
    simp only [findTaskByIdentifier, hp]
    exact hkw
  | some idx =>
    have hb : (1 ≤ idx && idx ≤ (tasks.length : Int)) = false := by
      have h := hpos
      simp only [positionalApplies, hp] at h
      exact h
    simp only [findTaskByIdentifier, hp, hb, Bool.false_eq_true, if_false]
    exact hkw

/-- Witness for C7: "gam" falls through to the title-substring step. -/
theorem resolve_title_substring_spec_witness :
    findTaskByIdentifier demo3 "gam"
      = demo3.find? fun task => jsIncludes (jsToLower task.title) (jsTrim (jsToLower "gam")) :=
  resolve_title_substring_spec demo3 "gam" (by decide) (by decide) (by decide)
    (by decide) (by decide)

/-- Claim C10 (implicit): for every filter (recognized or not) the filtered
sequence is a sublist of the input — items come from the input unmodified,
in their original relative order, with no duplication. -/
theorem filterTasks_sublist (tasks : List Task) (f : Option String) :
    List.Sublist (filterTasks tasks f) tasks := by
  cases f with
  | none => exact List.Sublist.refl tasks
  | some s =>
    simp only [filterTasks]
    repeat' split
    all_goals first
      | exact List.Sublist.refl tasks
      | exact List.filter_sublist tasks

/-- Claim C1 (counterexample): an all-whitespace title passes through
`add_task` with no error — the store changes, gaining an item whose title
is the empty string. -/
theorem add_blank_title_counterexample :
    jsTrim "   " = ""
    ∧ (processToolCall "id0" "t0" (ToolRequest.add "   " none none)
        createInitialState).state.tasks
      = [{ id := "id0", title := "", priority := Priority.medium, category := "",
           completed := false, createdAt := "t0", completedAt := none }]
    ∧ (processToolCall "id0" "t0" (ToolRequest.add "   " none none)
        createInitialState).state.tasks ≠ createInitialState.tasks :=
  ⟨rfl, rfl, by decide⟩

/-- Claim C1 (amended): `createTask` performs no validation — a title that
is empty after trimming still succeeds, appending an item with empty title
and returning the summary `Added ""`. -/
theorem add_task_no_validation (freshId now title : String)
    (priority : Option Priority) (category : Option String) (s : TaskState)
    (h : jsTrim title = "") :
    (processToolCall freshId now (ToolRequest.add title priority category) s).state.tasks
      = s.tasks
        ++ [createTask freshId now title (priority.getD Priority.medium) (category.getD "")]
    ∧ (createTask freshId now title (priority.getD Priority.medium) (category.getD "")).title
      = ""
    ∧ (processToolCall freshId now (ToolRequest.add title priority category) s).action
      = some "Added \"\"" := by
  refine ⟨rfl, h, ?_⟩
  simp only [processToolCall, createTask]
  rw [h]
  rfl

/-- Witness for C1's amended theorem at a concrete blank title. -/
theorem add_task_no_validation_witness :
    (processToolCall "id9" "t9" (ToolRequest.add " " none none) createInitialState).state.tasks
      = createInitialState.tasks ++ [createTask "id9" "t9" " " Priority.medium ""]
    ∧ (createTask "id9" "t9" " " Priority.medium "").title = ""
    ∧ (processToolCall "id9" "t9" (ToolRequest.add " " none none) createInitialState).action
      = some "Added \"\"" :=
  add_task_no_validation "id9" "t9" " " none none createInitialState (by decide)

/-- Claim C8 (counterexample): the key "Priority" is not literally one of
priority/completed/active/category, yet `filterTasks` does not return the
input unchanged — the switch lower-cases the key first. -/
theorem filter_key_case_counterexample :
    ("Priority" ≠ "priority" ∧ "Priority" ≠ "completed" ∧ "Priority" ≠ "active"
        ∧ "Priority" ≠ "category")
    ∧ (jsSplitColon "Priority:x").headD "" = "Priority"
    ∧ filterTasks [taskA] (some "Priority:x") = []
    ∧ filterTasks [taskA] (some "Priority:x") ≠ [taskA] :=
  ⟨⟨by decide, by decide, by decide, by decide⟩, rfl, rfl, by decide⟩

/-- Claim C8 (amended): an absent filter, the literal `all`, or a filter
string whose key — lower-cased — is not one of priority/completed/active/
category leaves the sequence unchanged (fail open). -/
theorem filterTasks_fail_open (tasks : List Task) (f : Option String)
    (h : f = none ∨ f = some "all"
        ∨ ∃ s, f = some s ∧ recognizedFilterKey s = false) :
    filterTasks tasks f = tasks := by
  rcases h with rfl | rfl | ⟨s, rfl, hs⟩
  · rfl
  · rfl
  · simp only [recognizedFilterKey, Bool.or_eq_false_iff, List.headD_eq_head?_getD] at hs
    obtain ⟨⟨⟨hp, hc⟩, ha⟩, hcat⟩ := hs
    simp only [filterTasks]
    split
    · rfl
    · rw [if_neg (by simp [hp]), if_neg (by simp [hc]), if_neg (by simp [ha]),
        if_neg (by simp [hcat])]

/-- Witness for C8's amended theorem: the unrecognized key `bogus` is
fail-open on the demo list. -/
theorem filterTasks_fail_open_witness :
    filterTasks demo3 (some "bogus:x") = demo3 :=
  filterTasks_fail_open demo3 (some "bogus:x")
    (Or.inr (Or.inr ⟨"bogus:x", rfl, by decide⟩))

/-- Claim C3: completing an item that is already completed is idempotent —
the items (hence every `completedAt`) and the filter are unchanged, no
summary is produced, and the message `"<title>" is already complete` is
set. -/
theorem complete_already_completed_idempotent (s : TaskState)
    (freshId now ident : String) (task : Task)
    (hfind : findTaskByIdentifier s.tasks ident = some task)
    (hdone : task.completed = true) :
    (processToolCall freshId now (ToolRequest.complete ident) s).state.tasks = s.tasks
    ∧ (processToolCall freshId now (ToolRequest.complete ident) s).state.filter = s.filter
    ∧ (processToolCall freshId now (ToolRequest.complete ident) s).action = none
    ∧ (processToolCall freshId now (ToolRequest.complete ident) s).state.agentMessage
      = some ("\"" ++ task.title ++ "\" is already complete") := by
  simp [processToolCall, hfind, hdone]

/-- Witness for C3 on a store whose sole item is already completed. -/
theorem complete_already_completed_idempotent_witness :
    (processToolCall "u" "t9" (ToolRequest.complete "1") doneState).state.tasks
      = doneState.tasks
    ∧ (processToolCall "u" "t9" (ToolRequest.complete "1") doneState).state.filter
      = doneState.filter
    ∧ (processToolCall "u" "t9" (ToolRequest.complete "1") doneState).action = none
    ∧ (processToolCall "u" "t9" (ToolRequest.complete "1") doneState).state.agentMessage
      = some ("\"" ++ taskDone.title ++ "\" is already complete") :=
  complete_already_completed_idempotent doneState "u" "t9" "1" taskDone rfl rfl

/-- Claim C4: `complete` followed by `uncomplete` on the same id yields
`completed = false` and `completedAt` cleared on the id-matching items,
leaving their other fields and all other items untouched; when the
targeted items started incomplete (per the store invariant), the store is
restored exactly. -/
theorem complete_uncomplete_roundtrip (s : TaskState) (taskId now : String) :
    (uncompleteTask (completeTask s taskId now) taskId).tasks
      = s.tasks.map (fun t => if t.id == taskId
          then { t with completed := false, completedAt := none } else t)
    ∧ (uncompleteTask (completeTask s taskId now) taskId).filter = s.filter
    ∧ (uncompleteTask (completeTask s taskId now) taskId).agentMessage = s.agentMessage
    ∧ ((∀ t ∈ s.tasks, t.id = taskId → t.completed = false ∧ t.completedAt = none) →
        uncompleteTask (completeTask s taskId now) taskId = s) := by
  obtain ⟨tasks, fil, msg⟩ := s
  have hmap : (uncompleteTask (completeTask ⟨tasks, fil, msg⟩ taskId now) taskId).tasks
      = tasks.map (fun t => if t.id == taskId
          then { t with completed := false, completedAt := none } else t) := by
    simp only [uncompleteTask, completeTask, List.map_map]
    congr 1
    funext t
    by_cases hid : t.id = taskId
    · simp [hid]
    · simp [hid]
  refine ⟨hmap, rfl, rfl, fun hall => ?_⟩
  have htasks : (uncompleteTask (completeTask ⟨tasks, fil, msg⟩ taskId now) taskId).tasks
      = tasks := by
    rw [hmap]
    have hpt : ∀ t ∈ tasks,
        (if t.id == taskId
          then { t with completed := false, completedAt := none } else t) = t := by
      intro t ht
      by_cases hid : t.id = taskId
      · obtain ⟨h1, h2⟩ := hall t ht hid
        obtain ⟨tid, ttl, tpr, tcat, tcomp, tcr, tca⟩ := t
        simp only at h1 h2
        simp [hid, h1, h2]
      · simp [hid]
    rw [List.map_congr_left hpt]
    simp
  have heta : uncompleteTask (completeTask ⟨tasks, fil, msg⟩ taskId now) taskId
      = TaskState.mk
          (uncompleteTask (completeTask ⟨tasks, fil, msg⟩ taskId now) taskId).tasks
          (uncompleteTask (completeTask ⟨tasks, fil, msg⟩ taskId now) taskId).filter
          (uncompleteTask (completeTask ⟨tasks, fil, msg⟩ taskId now) taskId).agentMessage :=
    rfl
  rw [heta, htasks]
  rfl

/-- Witness for C4 on the demo store, round-tripping item "b". -/
theorem complete_uncomplete_roundtrip_witness :
    uncompleteTask (completeTask ⟨demo3, none, none⟩ "b" "t9") "b"
      = (⟨demo3, none, none⟩ : TaskState) :=
  (complete_uncomplete_roundtrip ⟨demo3, none, none⟩ "b" "t9").2.2.2 (by decide)

/-- Claim C5: `completedAt.isSome = completed` holds in the freshly created
store and for every freshly created item, and is preserved by append,
complete, uncomplete, delete, set-filter, and by every executor step. -/
theorem completedAt_invariant :
    storeInv createInitialState
    ∧ (∀ id now title p c, itemInv (createTask id now title p c))
    ∧ (∀ s task, storeInv s → itemInv task → storeInv (addTask s task))
    ∧ (∀ s tid now, storeInv s → storeInv (completeTask s tid now))
    ∧ (∀ s tid, storeInv s → storeInv (uncompleteTask s tid))
    ∧ (∀ s tid, storeInv s → storeInv (deleteTask s tid))
    ∧ (∀ s f, storeInv s → storeInv { s with filter := f })
    ∧ (∀ freshId now req s, storeInv s → storeInv (processToolCall freshId now req s).state) := by
  have hinit : storeInv createInitialState := by
    intro t ht
    simp [createInitialState] at ht
  have hcreate : ∀ id now title p c, itemInv (createTask id now title p c) := by
    intro id now title p c
    simp [itemInv, createTask]
  have hadd : ∀ s task, storeInv s → itemInv task → storeInv (addTask s task) := by
    intro s task hs htask t ht
    simp only [addTask, List.mem_append, List.mem_singleton] at ht
    rcases ht with h | rfl
    · exact hs t h
    · exact htask
  have hcomp : ∀ s tid now, storeInv s → storeInv (completeTask s tid now) := by
    intro s tid now hs t ht
    simp only [completeTask, List.mem_map] at ht
    obtain ⟨u, hu, rfl⟩ := ht
    by_cases hid : u.id = tid
    · simp [hid]
    · simpa [hid] using hs u hu
  have huncomp : ∀ s tid, storeInv s → storeInv (uncompleteTask s tid) := by
    intro s tid hs t ht
    simp only [uncompleteTask, List.mem_map] at ht
    obtain ⟨u, hu, rfl⟩ := ht
    by_cases hid : u.id = tid
    · simp [hid]
    · simpa [hid] using hs u hu
  have hdel : ∀ s tid, storeInv s → storeInv (deleteTask s tid) := by
    intro s tid hs t ht
    simp only [deleteTask, List.mem_filter] at ht
    exact hs t ht.1
  have hfil : ∀ s f, storeInv s → storeInv { s with filter := f } :=
    fun s f hs t ht => hs t ht
  refine ⟨hinit, hcreate, hadd, hcomp, huncomp, hdel, hfil, ?_⟩
  intro freshId now req s hs
  cases req with
  | add title p c =>
    exact hadd s _ hs (hcreate freshId now title (p.getD .medium) (c.getD ""))
  | complete ident =>
    simp only [processToolCall]
    cases hf : findTaskByIdentifier s.tasks ident with
    | none => exact fun t ht => hs t ht
    | some task =>
      by_cases hc : task.completed
      · simp only [hc, if_true]
        exact fun t ht => hs t ht
      · simp only [hc, Bool.false_eq_true, if_false]
        exact hcomp s task.id now hs
  | uncomplete ident =>
    simp only [processToolCall]
    cases hf : findTaskByIdentifier s.tasks ident with
    | none => exact fun t ht => hs t ht
    | some task =>
      by_cases hc : task.completed
      · simp only [hc, Bool.not_true, Bool.false_eq_true, if_false]
        exact huncomp s task.id hs
      · simp only [hc, Bool.not_false, if_true]
        exact fun t ht => hs t ht
  | delete ident =>
    simp only [processToolCall]
    cases hf : findTaskByIdentifier s.tasks ident with
    | none => exact fun t ht => hs t ht
    | some task => exact hdel s task.id hs
  | setFilter ft fv => exact fun t ht => hs t ht
  | unknown => exact hs

/-- Witness for C5: the invariant holds after completing item 2 of the
demo store. -/
theorem completedAt_invariant_witness :
    storeInv (processToolCall "u" "t9" (ToolRequest.complete "2")
      ⟨demo3, none, none⟩).state :=
  completedAt_invariant.2.2.2.2.2.2.2 "u" "t9" (ToolRequest.complete "2")
    ⟨demo3, none, none⟩ (by simp only [storeInv]; decide)

/-- Claim C2: the batch loop threads the evolving store through the
requests in order (splitting a batch at any point composes), collects the
non-null summaries in order, and on the concrete scenario
[Add "buy milk" medium, Add "walk dog" high, Complete "1"] over the empty
store produces a two-item store whose first item "buy milk" is completed,
with joined summary exactly
`Added "buy milk". Added "walk dog". Completed "buy milk".`; a not-found
outcome does not abort the batch. -/
theorem applyBatch_spec :
    (∀ (s : TaskState) (l₁ l₂ : List ((String × String) × ToolRequest)),
        applyBatch s (l₁ ++ l₂)
          = ((applyBatch (applyBatch s l₁).1 l₂).1,
             (applyBatch s l₁).2 ++ (applyBatch (applyBatch s l₁).1 l₂).2))
    ∧ (applyBatch createInitialState
        [(("id1", "t1"), ToolRequest.add "buy milk" (some Priority.medium) none),
         (("id2", "t2"), ToolRequest.add "walk dog" (some Priority.high) none),
         (("id3", "t3"), ToolRequest.complete "1")]).1.tasks.length = 2
    ∧ ((applyBatch createInitialState
        [(("id1", "t1"), ToolRequest.add "buy milk" (some Priority.medium) none),
         (("id2", "t2"), ToolRequest.add "walk dog" (some Priority.high) none),
         (("id3", "t3"), ToolRequest.complete "1")]).1.tasks[0]?).map Task.title
      = some "buy milk"
    ∧ ((applyBatch createInitialState
        [(("id1", "t1"), ToolRequest.add "buy milk" (some Priority.medium) none),
         (("id2", "t2"), ToolRequest.add "walk dog" (some Priority.high) none),
         (("id3", "t3"), ToolRequest.complete "1")]).1.tasks[0]?).map Task.completed
      = some true
    ∧ joinActions (applyBatch createInitialState
        [(("id1", "t1"), ToolRequest.add "buy milk" (some Priority.medium) none),
         (("id2", "t2"), ToolRequest.add "walk dog" (some Priority.high) none),
         (("id3", "t3"), ToolRequest.complete "1")]).2
      = "Added \"buy milk\". Added \"walk dog\". Completed \"buy milk\"."
    ∧ (applyBatch createInitialState
        [(("id4", "t4"), ToolRequest.complete "9"),
         (("id5", "t5"), ToolRequest.add "x" none none)]).1.tasks.length = 1
    ∧ (applyBatch createInitialState
        [(("id4", "t4"), ToolRequest.complete "9"),
         (("id5", "t5"), ToolRequest.add "x" none none)]).2 = ["Added \"x\""] := by
  refine ⟨?_, rfl, rfl, rfl, rfl, rfl, rfl⟩
  intro s l₁ l₂
  induction l₁ generalizing s with
  | nil => simp [applyBatch]
  | cons hd tl ih =>
    obtain ⟨env, req⟩ := hd
    simp only [List.cons_append, applyBatch, List.append_eq]
    rw [ih]
    cases h : (processToolCall env.1 env.2 req s).action <;> simp [h, applyBatch]

end SmartTask
